import Mathlib

/-!
Shallow embedding of `calculate_lat_lon_point.py`: DMS/decimal angle
conversion, the local transverse-Mercator wrappers around the `pyproj`
transformer, and planar circle-circle intersection, together with proofs
of the specified properties.

Exact-arithmetic conventions: Python floats on the angle-conversion path
are embedded as rationals; the geometric path (which takes square roots)
is embedded over the reals.
-/

namespace CalcLatLon

open scoped Classical

/-! ### Angle conversion (source lines 7-8 and 79-83) -/

/-- Line 7-8: `dms_to_decimal(d, m, s) = d + m / 60 + s / 3600`. -/
def dms_to_decimal (d : ℤ) (m : ℤ) (s : ℚ) : ℚ :=
  d + m / 60 + s / 3600

/-- Python `int(x)` on a float: truncation toward zero. -/
def pytrunc (x : ℚ) : ℤ :=
  if 0 ≤ x then ⌊x⌋ else ⌈x⌉

/-- Lines 79-83:
`d = int(deg); m = int((deg - d) * 60); s = ((deg - d) * 60 - m) * 60`. -/
def decimal_to_dms (deg : ℚ) : ℤ × ℤ × ℚ :=
  let d := pytrunc deg
  let m := pytrunc ((deg - d) * 60)
  let s := ((deg - d) * 60 - m) * 60
  (d, m, s)

/-- Line 11: `A_lon = dms_to_decimal(105, 29, 52.3439)`. -/
def A_lon : ℚ := dms_to_decimal 105 29 (523439 / 10000)

/-- Line 12: `A_lat = dms_to_decimal(39, 17, 53.4608)`. -/
def A_lat : ℚ := dms_to_decimal 39 17 (534608 / 10000)

/-- Line 13: `B_lon = dms_to_decimal(105, 29, 52.3031)`. -/
def B_lon : ℚ := dms_to_decimal 105 29 (523031 / 10000)

/-- Line 14: `B_lat = dms_to_decimal(39, 17, 53.9129)`. -/
def B_lat : ℚ := dms_to_decimal 39 17 (539129 / 10000)

/-- Line 17: distance from C to A, metres. -/
def dA : ℚ := 1691 / 100

/-- Line 18: distance from C to B, metres. -/
def dB : ℚ := 9

/-! ### Local projection wrappers (source lines 33-43)

The `pyproj` transverse-Mercator transformer `local_tm` is external
library code; it is abstracted as an arbitrary function
`tm : lon → lat → (easting, northing)` (and its inverse-direction
companion `tmInv`), while the wrapper arithmetic of the source is
embedded exactly.  The module-level origin globals `A_lon`, `A_lat`
become the explicit parameters `oLon`, `oLat`. -/

/-- Lines 33-37: `e, n = tm(lon, lat); e0, n0 = tm(A_lon, A_lat);
return e - e0, n - n0`. -/
def latlon_to_local (tm : ℝ → ℝ → ℝ × ℝ) (oLon oLat lon lat : ℝ) : ℝ × ℝ :=
  let en := tm lon lat
  let en0 := tm oLon oLat
  (en.1 - en0.1, en.2 - en0.2)

/-- Lines 39-43: `e0, n0 = tm(A_lon, A_lat);
lon, lat = tmInv(e + e0, n + n0); return lat, lon`
(note the output order swap to latitude-first). -/
def local_to_latlon (tm tmInv : ℝ → ℝ → ℝ × ℝ) (oLon oLat e n : ℝ) : ℝ × ℝ :=
  let en0 := tm oLon oLat
  let ll := tmInv (e + en0.1) (n + en0.2)
  (ll.2, ll.1)

/-! ### Theorems: angle conversion and projection claims -/

/-- C5: for every projection function and every origin, projecting the
origin's own longitude/latitude through `latlon_to_local` yields exactly
`(0, 0)`: the transformer's native coordinates of the origin are
subtracted from themselves. -/
theorem latlon_to_local_origin (tm : ℝ → ℝ → ℝ × ℝ) (oLon oLat : ℝ) :
    latlon_to_local tm oLon oLat oLon oLat = (0, 0) := by
  simp [latlon_to_local]

/-- C6 counterexample: the claim says minutes and seconds returned by
`decimal_to_dms` are always non-negative, but at the negative non-integer
input `-10.5` the code returns minutes `= -30 < 0`. -/
theorem decimal_to_dms_negative_minutes :
    decimal_to_dms (-21 / 2) = (-10, -30, 0) ∧ ((-30 : ℤ) < 0) := by
  have h1 : pytrunc (-21 / 2) = -10 := by
    unfold pytrunc
    rw [if_neg (by norm_num), Int.ceil_eq_iff]
    norm_num
  have h2 : pytrunc (-30) = -30 := by
    unfold pytrunc
    rw [if_neg (by norm_num), Int.ceil_eq_iff]
    norm_num
  have h3 : ((-21 / 2 : ℚ) - ((-10 : ℤ) : ℚ)) * 60 = -30 := by norm_num
  refine ⟨?_, by norm_num⟩
  simp only [decimal_to_dms, h1, h3, h2]
  norm_num

/-- C6 amended: `decimal_to_dms` truncates toward zero at each stage, so
for every non-positive input all three components (degrees, minutes,
seconds) are non-positive: minutes and seconds carry the sign of the
input instead of being non-negative magnitudes. -/
theorem decimal_to_dms_nonpos_components (x : ℚ) (hx : x ≤ 0) :
    (decimal_to_dms x).1 ≤ 0 ∧ (decimal_to_dms x).2.1 ≤ 0 ∧
      (decimal_to_dms x).2.2 ≤ 0 := by
  have trunc_nonpos : ∀ y : ℚ, y ≤ 0 → (pytrunc y : ℚ) ≤ 0 := by
    intro y hy
    unfold pytrunc
    split_ifs with h
    · have : y = 0 := le_antisymm hy h
      simp [this]
    · exact_mod_cast Int.ceil_le.mpr (by exact_mod_cast hy)
  have trunc_ge : ∀ y : ℚ, y ≤ 0 → y ≤ (pytrunc y : ℚ) := by
    intro y hy
    unfold pytrunc
    split_ifs with h
    · have : y = 0 := le_antisymm hy h
      simp [this]
    · exact Int.le_ceil y
  have hd : (pytrunc x : ℚ) ≤ 0 := trunc_nonpos x hx
  have hxd : x - (pytrunc x : ℚ) ≤ 0 := sub_nonpos.mpr (trunc_ge x hx)
  have hy : (x - (pytrunc x : ℚ)) * 60 ≤ 0 := by nlinarith
  have hm : (pytrunc ((x - (pytrunc x : ℚ)) * 60) : ℚ) ≤ 0 := trunc_nonpos _ hy
  have hym : (x - (pytrunc x : ℚ)) * 60 -
      (pytrunc ((x - (pytrunc x : ℚ)) * 60) : ℚ) ≤ 0 :=
    sub_nonpos.mpr (trunc_ge _ hy)
  refine ⟨?_, ?_, ?_⟩
  · exact_mod_cast hd
  · exact_mod_cast hm
  · show ((x - (pytrunc x : ℚ)) * 60 -
        (pytrunc ((x - (pytrunc x : ℚ)) * 60) : ℚ)) * 60 ≤ 0
    nlinarith

/-- C6 amended, witness at the concrete input `-0.75`. -/
theorem decimal_to_dms_nonpos_components_witness :
    (-3 / 4 : ℚ) ≤ 0 ∧
      ((decimal_to_dms (-3 / 4)).1 ≤ 0 ∧ (decimal_to_dms (-3 / 4)).2.1 ≤ 0 ∧
        (decimal_to_dms (-3 / 4)).2.2 ≤ 0) :=
  ⟨by norm_num, decimal_to_dms_nonpos_components (-3 / 4) (by norm_num)⟩

/-- C7: for every `x` in `[-180, 180]`, decomposing with `decimal_to_dms`
and recomposing with `dms_to_decimal` recovers `x` to within `1e-8`
degrees (in exact arithmetic the round trip is exact, so the bound
holds). -/
theorem dms_roundtrip (x : ℚ) (h1 : -180 ≤ x) (h2 : x ≤ 180) :
    |dms_to_decimal (decimal_to_dms x).1 (decimal_to_dms x).2.1
        (decimal_to_dms x).2.2 - x| ≤ 1 / 100000000 := by
  have hexact : dms_to_decimal (decimal_to_dms x).1 (decimal_to_dms x).2.1
      (decimal_to_dms x).2.2 = x := by
    simp only [decimal_to_dms, dms_to_decimal]
    ring
  rw [hexact]
  simp

/-- C7, witness at the concrete input `45`. -/
theorem dms_roundtrip_witness :
    (-180 ≤ (45 : ℚ) ∧ (45 : ℚ) ≤ 180) ∧
      |dms_to_decimal (decimal_to_dms 45).1 (decimal_to_dms 45).2.1
          (decimal_to_dms 45).2.2 - 45| ≤ 1 / 100000000 :=
  ⟨⟨by norm_num, by norm_num⟩, dms_roundtrip 45 (by norm_num) (by norm_num)⟩

/-- C9: round trip through the local projection.  For any transformer
pair `(tm, tmInv)` such that the inverse direction inverts the forward
direction at the given point, the composition
`local_to_latlon ∘ latlon_to_local` reproduces the point exactly (as
`(lat, lon)`), because the origin offsets cancel; exact reproduction is
in particular within `1e-9` degrees. -/
theorem projection_roundtrip (tm tmInv : ℝ → ℝ → ℝ × ℝ)
    (oLon oLat lon lat : ℝ)
    (hinv : tmInv (tm lon lat).1 (tm lon lat).2 = (lon, lat)) :
    local_to_latlon tm tmInv oLon oLat
        (latlon_to_local tm oLon oLat lon lat).1
        (latlon_to_local tm oLon oLat lon lat).2 = (lat, lon) := by
  simp only [local_to_latlon, latlon_to_local]
  have e1 : (tm lon lat).1 - (tm oLon oLat).1 + (tm oLon oLat).1
      = (tm lon lat).1 := by ring
  have e2 : (tm lon lat).2 - (tm oLon oLat).2 + (tm oLon oLat).2
      = (tm lon lat).2 := by ring
  rw [e1, e2, hinv]

/-- C9, witness: a concrete invertible transformer pair and point. -/
theorem projection_roundtrip_witness :
    (fun a b : ℝ => (a - 100, b - 200)) ((fun a b : ℝ => (a + 100, b + 200)) 30 40).1
        ((fun a b : ℝ => (a + 100, b + 200)) 30 40).2 = ((30 : ℝ), (40 : ℝ)) ∧
      local_to_latlon (fun a b : ℝ => (a + 100, b + 200))
          (fun a b : ℝ => (a - 100, b - 200)) 10 20
          (latlon_to_local (fun a b : ℝ => (a + 100, b + 200)) 10 20 30 40).1
          (latlon_to_local (fun a b : ℝ => (a + 100, b + 200)) 10 20 30 40).2
        = (40, 30) :=
  ⟨by norm_num,
    projection_roundtrip (fun a b : ℝ => (a + 100, b + 200))
      (fun a b : ℝ => (a - 100, b - 200)) 10 20 30 40 (by norm_num)⟩

/-! ### Circle-circle intersection (source lines 52-62)

Embedded over the reals.  `hypot` is `np.hypot`.  The Python code raises
`ValueError("无解：两圆不相交")` when the circles do not intersect; this is
embedded as `Except.error`.  The primary embedding `circle_intersection`
uses Lean's total real division and `Real.sqrt`; the companion
`circle_intersection_np` models numpy's actual partiality (division by
zero and square roots of negatives produce NaN, embedded as `none`). -/

/-- Embeds `np.hypot(x, y) = sqrt(x^2 + y^2)`. -/
noncomputable def hypot (x y : ℝ) : ℝ := Real.sqrt (x ^ 2 + y ^ 2)

/-- Message of the `ValueError` raised on line 55. -/
def noIntersectionMsg : String := "无解：两圆不相交"

/-- Lines 52-62, with Lean's total division and square root. -/
noncomputable def circle_intersection (x1 y1 r1 x2 y2 r2 : ℝ) :
    Except String ((ℝ × ℝ) × (ℝ × ℝ)) :=
  let d := hypot (x2 - x1) (y2 - y1)
  if d > r1 + r2 ∨ d < |r1 - r2| then Except.error noIntersectionMsg
  else
    let a := (r1 ^ 2 - r2 ^ 2 + d ^ 2) / (2 * d)
    let h := Real.sqrt (r1 ^ 2 - a ^ 2)
    let xm := x1 + a * (x2 - x1) / d
    let ym := y1 + a * (y2 - y1) / d
    let dx := h * (y2 - y1) / d
    let dy := h * (x1 - x2) / d
    Except.ok ((xm + dx, ym + dy), (xm - dx, ym - dy))

/-- Division as numpy computes it on the reachable inputs of lines 56-61:
`none` stands for a NaN result (division by zero; at every guard-passing
input of the source a zero divisor forces a zero numerator, so the
infinite case never arises). -/
noncomputable def npDiv (x y : ℝ) : Option ℝ :=
  if y = 0 then none else some (x / y)

/-- Embeds `np.sqrt`: NaN (`none`) on negative arguments. -/
noncomputable def npSqrt (x : ℝ) : Option ℝ :=
  if x < 0 then none else some (Real.sqrt x)

/-- Lines 52-62 with numpy's partial arithmetic made explicit:
`Except.error` is the raised `ValueError`, `Except.ok none` a returned
NaN result, `Except.ok (some pq)` a clean pair of intersection points. -/
noncomputable def circle_intersection_np (x1 y1 r1 x2 y2 r2 : ℝ) :
    Except String (Option ((ℝ × ℝ) × (ℝ × ℝ))) :=
  let d := hypot (x2 - x1) (y2 - y1)
  if d > r1 + r2 ∨ d < |r1 - r2| then Except.error noIntersectionMsg
  else Except.ok (do
    let a ← npDiv (r1 ^ 2 - r2 ^ 2 + d ^ 2) (2 * d)
    let h ← npSqrt (r1 ^ 2 - a ^ 2)
    let mx ← npDiv (a * (x2 - x1)) d
    let my ← npDiv (a * (y2 - y1)) d
    let dx ← npDiv (h * (y2 - y1)) d
    let dy ← npDiv (h * (x1 - x2)) d
    pure ((x1 + mx + dx, y1 + my + dy), (x1 + mx - dx, y1 + my - dy)))

/-- The half-chord computation of lines 56-57 in numpy's partial
arithmetic: `a = (r1^2 - r2^2 + d^2) / (2 d)`, `h = np.sqrt(r1^2 - a^2)`. -/
noncomputable def h_np (x1 y1 r1 x2 y2 r2 : ℝ) : Option ℝ :=
  let d := hypot (x2 - x1) (y2 - y1)
  (npDiv (r1 ^ 2 - r2 ^ 2 + d ^ 2) (2 * d)).bind fun a =>
    npSqrt (r1 ^ 2 - a ^ 2)

/-- The spec's "+" branch solution, following the spec's words:
`M + h·p` with `M = center1 + a·(center2 - center1)/d`,
`h = sqrt(r1^2 - a^2)` and `p = (-ey, ex)` the perpendicular of the unit
axis vector `(ex, ey) = (center2 - center1)/d`. -/
noncomputable def specPlusPoint (x1 y1 r1 x2 y2 r2 : ℝ) : ℝ × ℝ :=
  let d := hypot (x2 - x1) (y2 - y1)
  let a := (r1 ^ 2 - r2 ^ 2 + d ^ 2) / (2 * d)
  let h := Real.sqrt (r1 ^ 2 - a ^ 2)
  let ex := (x2 - x1) / d
  let ey := (y2 - y1) / d
  (x1 + a * ex + h * (-ey), y1 + a * ey + h * ex)

/-- The spec's "−" branch solution `M - h·p` (same data as
`specPlusPoint`). -/
noncomputable def specMinusPoint (x1 y1 r1 x2 y2 r2 : ℝ) : ℝ × ℝ :=
  let d := hypot (x2 - x1) (y2 - y1)
  let a := (r1 ^ 2 - r2 ^ 2 + d ^ 2) / (2 * d)
  let h := Real.sqrt (r1 ^ 2 - a ^ 2)
  let ex := (x2 - x1) / d
  let ey := (y2 - y1) / d
  (x1 + a * ex - h * (-ey), y1 + a * ey - h * ex)

/-! ### Helper lemmas for the geometry -/

lemma sq_hypot (x y : ℝ) : hypot x y ^ 2 = x ^ 2 + y ^ 2 :=
  Real.sq_sqrt (by positivity)

lemma hypot_nonneg (x y : ℝ) : 0 ≤ hypot x y :=
  Real.sqrt_nonneg _

lemma hypot_eq_of_sq (u v r : ℝ) (hr : 0 ≤ r) (h : u ^ 2 + v ^ 2 = r ^ 2) :
    hypot u v = r := by
  rw [hypot, h, Real.sqrt_sq hr]

lemma hypot_six_zero : hypot (6 - 0 : ℝ) (0 - 0 : ℝ) = 6 :=
  hypot_eq_of_sq _ _ _ (by norm_num) (by norm_num)

/-- Key geometric inequality: under the intersection guard the square of
the radical-line offset `a` is at most `r1^2`, so the square-root
argument on line 57 is non-negative in exact arithmetic. -/
lemma radical_sq_le (r1 r2 d : ℝ) (h1 : |r1 - r2| ≤ d) (h2 : d ≤ r1 + r2)
    (hd : 0 < d) : ((r1 ^ 2 - r2 ^ 2 + d ^ 2) / (2 * d)) ^ 2 ≤ r1 ^ 2 := by
  obtain ⟨ha, hb⟩ := abs_le.mp h1
  rw [div_pow, div_le_iff (by positivity)]
  have f1 : 0 ≤ d - (r1 - r2) := by linarith
  have f2 : 0 ≤ r1 + r2 - d := by linarith
  have f3 : 0 ≤ d + (r1 - r2) := by linarith
  have f4 : 0 ≤ r1 + r2 + d := by linarith
  nlinarith [mul_nonneg (mul_nonneg f1 f2) (mul_nonneg f3 f4)]

/-! ### Theorems: circle-intersection claims -/

/-- C2: `circle_intersection` raises the no-intersection `ValueError`
exactly when `d > r1 + r2` or `d < |r1 - r2|`; on every other input it
returns a pair of two solution points. -/
theorem circle_intersection_error_iff (x1 y1 r1 x2 y2 r2 : ℝ) :
    (circle_intersection x1 y1 r1 x2 y2 r2 = Except.error noIntersectionMsg ↔
      (hypot (x2 - x1) (y2 - y1) > r1 + r2 ∨
        hypot (x2 - x1) (y2 - y1) < |r1 - r2|)) ∧
    ((hypot (x2 - x1) (y2 - y1) > r1 + r2 ∨
        hypot (x2 - x1) (y2 - y1) < |r1 - r2|) ∨
      ∃ p q, circle_intersection x1 y1 r1 x2 y2 r2 = Except.ok (p, q)) := by
  simp only [circle_intersection]
  split_ifs with h
  · exact ⟨by simp [h], Or.inl h⟩
  · exact ⟨by simp [h], Or.inr ⟨_, _, rfl⟩⟩

/-- C1 counterexample: for the circles centered `(0,0)` and `(6,0)` with
radii `5` and `5` (distance `d = 6`, `a = 3`, `h = 4`, axis `(ex, ey) =
(1, 0)`, perpendicular `p = (0, 1)`, midpoint `M = (3, 0)`), the code
returns `((3, -4), (3, 4))`: the first returned point is `M - h·p`, not
the claimed `M + h·p = (3, 4)`. -/
theorem circle_intersection_order_counterexample :
    circle_intersection 0 0 5 6 0 5 = Except.ok ((3, -4), (3, 4)) ∧
      specPlusPoint 0 0 5 6 0 5 = (3, 4) ∧
      ((3 : ℝ), (-4 : ℝ)) ≠ ((3 : ℝ), (4 : ℝ)) := by
  have ha : ((5 : ℝ) ^ 2 - 5 ^ 2 + 6 ^ 2) / (2 * 6) = 3 := by norm_num
  have hh : Real.sqrt ((5 : ℝ) ^ 2 - (((5 : ℝ) ^ 2 - 5 ^ 2 + 6 ^ 2) / (2 * 6)) ^ 2)
      = 4 := by
    rw [show ((5 : ℝ) ^ 2 - (((5 : ℝ) ^ 2 - 5 ^ 2 + 6 ^ 2) / (2 * 6)) ^ 2)
        = 4 ^ 2 by norm_num]
    exact Real.sqrt_sq (by norm_num)
  refine ⟨?_, ?_, by norm_num⟩
  · simp only [circle_intersection, hypot_six_zero]
    rw [if_neg (by norm_num)]
    rw [hh]
    norm_num
  · simp only [specPlusPoint, hypot_six_zero]
    rw [hh]
    norm_num

/-- C1 amended: on every input passing the guard with positive center
distance, `circle_intersection` returns the "−" branch `M - h·p` FIRST
and the "+" branch `M + h·p` second (with the spec's perpendicular
`p = (-ey, ex)`); equivalently, the code's first point uses the opposite
perpendicular `(ey, -ex)`. -/
theorem circle_intersection_branch_order (x1 y1 r1 x2 y2 r2 : ℝ)
    (h1 : |r1 - r2| ≤ hypot (x2 - x1) (y2 - y1))
    (h2 : hypot (x2 - x1) (y2 - y1) ≤ r1 + r2)
    (hd : 0 < hypot (x2 - x1) (y2 - y1)) :
    circle_intersection x1 y1 r1 x2 y2 r2 =
      Except.ok (specMinusPoint x1 y1 r1 x2 y2 r2,
        specPlusPoint x1 y1 r1 x2 y2 r2) := by
  have hguard : ¬(hypot (x2 - x1) (y2 - y1) > r1 + r2 ∨
      hypot (x2 - x1) (y2 - y1) < |r1 - r2|) := by
    push_neg
    exact ⟨h2, h1⟩
  simp only [circle_intersection, specMinusPoint, specPlusPoint]
  rw [if_neg hguard]
  simp only [Except.ok.injEq, Prod.mk.injEq]
  exact ⟨⟨by ring, by ring⟩, by ring, by ring⟩

/-- C1 amended, witness at the circles of the counterexample
configuration. -/
theorem circle_intersection_branch_order_witness :
    (|(5 : ℝ) - 5| ≤ hypot (6 - 0) (0 - 0) ∧
      hypot (6 - 0 : ℝ) (0 - 0 : ℝ) ≤ 5 + 5 ∧
      (0 : ℝ) < hypot (6 - 0) (0 - 0)) ∧
    circle_intersection 0 0 5 6 0 5 =
      Except.ok (specMinusPoint 0 0 5 6 0 5, specPlusPoint 0 0 5 6 0 5) :=
  ⟨⟨by rw [hypot_six_zero]; norm_num, by rw [hypot_six_zero]; norm_num,
      by rw [hypot_six_zero]; norm_num⟩,
    circle_intersection_branch_order 0 0 5 6 0 5
      (by rw [hypot_six_zero]; norm_num) (by rw [hypot_six_zero]; norm_num)
      (by rw [hypot_six_zero]; norm_num)⟩

/-- C3 counterexample: the input with coincident centers `(2,3)` and
equal radii `4` passes the intersection check (`d = 0` is neither
`> r1 + r2` nor `< |r1 - r2|`), yet the half-chord computation of lines
56-57 divides by zero, so `h` is NaN rather than a well-defined
non-negative number; in particular no clamping to `0` takes place. -/
theorem half_chord_nan_counterexample :
    ¬(hypot (2 - 2 : ℝ) (3 - 3 : ℝ) > 4 + 4 ∨
        hypot (2 - 2 : ℝ) (3 - 3 : ℝ) < |(4 : ℝ) - 4|) ∧
      h_np 2 3 4 2 3 4 = none := by
  have h0 : hypot (2 - 2 : ℝ) (3 - 3 : ℝ) = 0 := by
    rw [hypot]
    norm_num
  constructor
  · rw [h0]
    norm_num
  · simp only [h_np, h0]
    simp [npDiv]

/-- C3 amended: line 57 computes `h = np.sqrt(r1^2 - a^2)` with no
clamping; nevertheless, for every input that passes the intersection
check and has positive center distance, exact arithmetic gives
`r1^2 - a^2 >= 0`, so the square-root argument is never negative and `h`
is a well-defined non-negative number.  (Only the `d = 0` inputs of the
counterexample escape this, and a float-rounded negative argument would
produce NaN, not `0`.) -/
theorem half_chord_nonneg_of_guard (x1 y1 r1 x2 y2 r2 : ℝ)
    (hg : ¬(hypot (x2 - x1) (y2 - y1) > r1 + r2 ∨
        hypot (x2 - x1) (y2 - y1) < |r1 - r2|))
    (hd : 0 < hypot (x2 - x1) (y2 - y1)) :
    0 ≤ r1 ^ 2 - ((r1 ^ 2 - r2 ^ 2 + hypot (x2 - x1) (y2 - y1) ^ 2) /
        (2 * hypot (x2 - x1) (y2 - y1))) ^ 2 ∧
      h_np x1 y1 r1 x2 y2 r2 =
        some (Real.sqrt (r1 ^ 2 -
          ((r1 ^ 2 - r2 ^ 2 + hypot (x2 - x1) (y2 - y1) ^ 2) /
            (2 * hypot (x2 - x1) (y2 - y1))) ^ 2)) ∧
      0 ≤ Real.sqrt (r1 ^ 2 -
          ((r1 ^ 2 - r2 ^ 2 + hypot (x2 - x1) (y2 - y1) ^ 2) /
            (2 * hypot (x2 - x1) (y2 - y1))) ^ 2) := by
  push_neg at hg
  obtain ⟨hle, habs⟩ := hg
  have harg : 0 ≤ r1 ^ 2 - ((r1 ^ 2 - r2 ^ 2 + hypot (x2 - x1) (y2 - y1) ^ 2) /
      (2 * hypot (x2 - x1) (y2 - y1))) ^ 2 :=
    sub_nonneg.mpr (radical_sq_le r1 r2 _ habs hle hd)
  have h2d : (2 : ℝ) * hypot (x2 - x1) (y2 - y1) ≠ 0 :=
    mul_ne_zero two_ne_zero (ne_of_gt hd)
  refine ⟨harg, ?_, Real.sqrt_nonneg _⟩
  simp only [h_np, npDiv, npSqrt, if_neg h2d, Option.some_bind,
    if_neg (not_lt.mpr harg)]

/-- C3 amended, witness at the circles centered `(0,0)` and `(6,0)` with
radii `5` and `5`. -/
theorem half_chord_nonneg_of_guard_witness :
    (¬(hypot (6 - 0 : ℝ) (0 - 0 : ℝ) > 5 + 5 ∨
        hypot (6 - 0 : ℝ) (0 - 0 : ℝ) < |(5 : ℝ) - 5|) ∧
      (0 : ℝ) < hypot (6 - 0) (0 - 0)) ∧
    (0 ≤ (5 : ℝ) ^ 2 - (((5 : ℝ) ^ 2 - 5 ^ 2 + hypot (6 - 0) (0 - 0) ^ 2) /
        (2 * hypot (6 - 0) (0 - 0))) ^ 2 ∧
      h_np 0 0 5 6 0 5 =
        some (Real.sqrt ((5 : ℝ) ^ 2 -
          (((5 : ℝ) ^ 2 - 5 ^ 2 + hypot (6 - 0) (0 - 0) ^ 2) /
            (2 * hypot (6 - 0) (0 - 0))) ^ 2)) ∧
      0 ≤ Real.sqrt ((5 : ℝ) ^ 2 -
          (((5 : ℝ) ^ 2 - 5 ^ 2 + hypot (6 - 0) (0 - 0) ^ 2) /
            (2 * hypot (6 - 0) (0 - 0))) ^ 2)) :=
  ⟨⟨by rw [hypot_six_zero]; norm_num, by rw [hypot_six_zero]; norm_num⟩,
    half_chord_nonneg_of_guard 0 0 5 6 0 5
      (by rw [hypot_six_zero]; norm_num) (by rw [hypot_six_zero]; norm_num)⟩

/-- C4 counterexample: two identical circles (centers `(0,0)`, radii
`1`) pass the intersection check, but the numpy computation divides by
`d = 0` and returns NaN coordinates: the outcome `Except.ok none` is
neither a pair of solution points nor the no-intersection failure. -/
theorem circle_intersection_np_nan_counterexample :
    circle_intersection_np 0 0 1 0 0 1 = Except.ok none ∧
      Except.ok (none : Option ((ℝ × ℝ) × (ℝ × ℝ))) ≠
        Except.error noIntersectionMsg := by
  have h0 : hypot (0 - 0 : ℝ) (0 - 0 : ℝ) = 0 := by
    rw [hypot]
    norm_num
  constructor
  · simp only [circle_intersection_np, h0]
    rw [if_neg (by norm_num)]
    simp [npDiv]
  · intro h
    exact Except.noConfusion h

/-- C4 amended: on every input whose projected centers are distinct
(`d > 0`), the numpy-faithful pipeline either raises the
no-intersection failure or returns two well-defined solution points (no
division by zero, no NaN); coincident centers with equal radii are the
single escape, as the counterexample shows. -/
theorem circle_intersection_np_total_of_pos_dist (x1 y1 r1 x2 y2 r2 : ℝ)
    (hd : 0 < hypot (x2 - x1) (y2 - y1)) :
    circle_intersection_np x1 y1 r1 x2 y2 r2 = Except.error noIntersectionMsg ∨
      ∃ pq, circle_intersection_np x1 y1 r1 x2 y2 r2 = Except.ok (some pq) := by
  by_cases hg : hypot (x2 - x1) (y2 - y1) > r1 + r2 ∨
      hypot (x2 - x1) (y2 - y1) < |r1 - r2|
  · left
    simp only [circle_intersection_np]
    rw [if_pos hg]
  · right
    push_neg at hg
    obtain ⟨hle, habs⟩ := hg
    have hd0 : hypot (x2 - x1) (y2 - y1) ≠ 0 := ne_of_gt hd
    have h2d : (2 : ℝ) * hypot (x2 - x1) (y2 - y1) ≠ 0 :=
      mul_ne_zero two_ne_zero hd0
    have harg : 0 ≤ r1 ^ 2 -
        ((r1 ^ 2 - r2 ^ 2 + hypot (x2 - x1) (y2 - y1) ^ 2) /
          (2 * hypot (x2 - x1) (y2 - y1))) ^ 2 :=
      sub_nonneg.mpr (radical_sq_le r1 r2 _ habs hle hd)
    simp only [circle_intersection_np]
    rw [if_neg (by push_neg; exact ⟨hle, habs⟩)]
    simp only [npDiv, npSqrt, if_neg h2d, if_neg hd0,
      if_neg (not_lt.mpr harg), Option.bind_eq_bind, Option.some_bind,
      Option.pure_def]
    exact ⟨_, rfl⟩

/-- C4 amended, witness at the circles centered `(0,0)` and `(6,0)` with
radii `5` and `5`. -/
theorem circle_intersection_np_total_of_pos_dist_witness :
    (0 : ℝ) < hypot (6 - 0) (0 - 0) ∧
      (circle_intersection_np 0 0 5 6 0 5 = Except.error noIntersectionMsg ∨
        ∃ pq, circle_intersection_np 0 0 5 6 0 5 = Except.ok (some pq)) :=
  ⟨by rw [hypot_six_zero]; norm_num,
    circle_intersection_np_total_of_pos_dist 0 0 5 6 0 5
      (by rw [hypot_six_zero]; norm_num)⟩

/-- Algebraic core of the on-circle property: with `d` the center
distance, `a` the radical offset and `h` the half-chord, both
intersection points have squared distance `r1^2` to center 1 and `r2^2`
to center 2. -/
lemma on_circle_sq (X Y r1 r2 d a h : ℝ) (hd0 : d ≠ 0)
    (hdsq : d ^ 2 = X ^ 2 + Y ^ 2)
    (hh2 : h ^ 2 = r1 ^ 2 - a ^ 2)
    (h2ad : 2 * a * d = r1 ^ 2 - r2 ^ 2 + d ^ 2) :
    ((a * X / d + h * Y / d) ^ 2 + (a * Y / d - h * X / d) ^ 2 = r1 ^ 2) ∧
    ((a * X / d + h * Y / d - X) ^ 2 + (a * Y / d - h * X / d - Y) ^ 2 = r2 ^ 2) ∧
    ((a * X / d - h * Y / d) ^ 2 + (a * Y / d + h * X / d) ^ 2 = r1 ^ 2) ∧
    ((a * X / d - h * Y / d - X) ^ 2 + (a * Y / d + h * X / d - Y) ^ 2 = r2 ^ 2) := by
  refine ⟨?_, ?_, ?_, ?_⟩
  · field_simp
    linear_combination (-(a ^ 2 + h ^ 2)) * hdsq + d ^ 2 * hh2
  · field_simp
    linear_combination (-((a - d) ^ 2 + h ^ 2)) * hdsq + d ^ 2 * hh2 -
      d ^ 2 * h2ad
  · field_simp
    linear_combination (-(a ^ 2 + h ^ 2)) * hdsq + d ^ 2 * hh2
  · field_simp
    linear_combination (-((a - d) ^ 2 + h ^ 2)) * hdsq + d ^ 2 * hh2 -
      d ^ 2 * h2ad

/-- C10: on every input with non-negative radii passing the guard with
positive center distance, `circle_intersection` succeeds and each of the
two returned points lies exactly on both circles: Euclidean distance
`r1` to center 1 and `r2` to center 2. -/
theorem circle_intersection_on_circles (x1 y1 r1 x2 y2 r2 : ℝ)
    (hr1 : 0 ≤ r1) (hr2 : 0 ≤ r2)
    (h1 : |r1 - r2| ≤ hypot (x2 - x1) (y2 - y1))
    (h2 : hypot (x2 - x1) (y2 - y1) ≤ r1 + r2)
    (hd : 0 < hypot (x2 - x1) (y2 - y1)) :
    ∃ p q, circle_intersection x1 y1 r1 x2 y2 r2 = Except.ok (p, q) ∧
      hypot (p.1 - x1) (p.2 - y1) = r1 ∧ hypot (p.1 - x2) (p.2 - y2) = r2 ∧
      hypot (q.1 - x1) (q.2 - y1) = r1 ∧ hypot (q.1 - x2) (q.2 - y2) = r2 := by
  have hd0 : hypot (x2 - x1) (y2 - y1) ≠ 0 := ne_of_gt hd
  have hguard : ¬(hypot (x2 - x1) (y2 - y1) > r1 + r2 ∨
      hypot (x2 - x1) (y2 - y1) < |r1 - r2|) := by
    push_neg
    exact ⟨h2, h1⟩
  have hdsq : hypot (x2 - x1) (y2 - y1) ^ 2 = (x2 - x1) ^ 2 + (y2 - y1) ^ 2 :=
    sq_hypot _ _
  have hasq : ((r1 ^ 2 - r2 ^ 2 + hypot (x2 - x1) (y2 - y1) ^ 2) /
      (2 * hypot (x2 - x1) (y2 - y1))) ^ 2 ≤ r1 ^ 2 :=
    radical_sq_le r1 r2 _ h1 h2 hd
  have hh2 : Real.sqrt (r1 ^ 2 -
      ((r1 ^ 2 - r2 ^ 2 + hypot (x2 - x1) (y2 - y1) ^ 2) /
        (2 * hypot (x2 - x1) (y2 - y1))) ^ 2) ^ 2
      = r1 ^ 2 - ((r1 ^ 2 - r2 ^ 2 + hypot (x2 - x1) (y2 - y1) ^ 2) /
        (2 * hypot (x2 - x1) (y2 - y1))) ^ 2 :=
    Real.sq_sqrt (by linarith)
  have h2ad : 2 * ((r1 ^ 2 - r2 ^ 2 + hypot (x2 - x1) (y2 - y1) ^ 2) /
      (2 * hypot (x2 - x1) (y2 - y1))) * hypot (x2 - x1) (y2 - y1)
      = r1 ^ 2 - r2 ^ 2 + hypot (x2 - x1) (y2 - y1) ^ 2 := by
    field_simp
    ring
  obtain ⟨k1, k2, k3, k4⟩ := on_circle_sq (x2 - x1) (y2 - y1) r1 r2
    (hypot (x2 - x1) (y2 - y1))
    ((r1 ^ 2 - r2 ^ 2 + hypot (x2 - x1) (y2 - y1) ^ 2) /
      (2 * hypot (x2 - x1) (y2 - y1)))
    (Real.sqrt (r1 ^ 2 -
      ((r1 ^ 2 - r2 ^ 2 + hypot (x2 - x1) (y2 - y1) ^ 2) /
        (2 * hypot (x2 - x1) (y2 - y1))) ^ 2))
    hd0 hdsq hh2 h2ad
  simp only [circle_intersection]
  rw [if_neg hguard]
  set d := hypot (x2 - x1) (y2 - y1) with hd_def
  set a := (r1 ^ 2 - r2 ^ 2 + d ^ 2) / (2 * d) with ha_def
  set h := Real.sqrt (r1 ^ 2 - a ^ 2) with hh_def
  refine ⟨(x1 + a * (x2 - x1) / d + h * (y2 - y1) / d,
      y1 + a * (y2 - y1) / d + h * (x1 - x2) / d),
    (x1 + a * (x2 - x1) / d - h * (y2 - y1) / d,
      y1 + a * (y2 - y1) / d - h * (x1 - x2) / d),
    rfl, ?_, ?_, ?_, ?_⟩
  · exact hypot_eq_of_sq _ _ _ hr1 (by linear_combination k1)
  · exact hypot_eq_of_sq _ _ _ hr2 (by linear_combination k2)
  · exact hypot_eq_of_sq _ _ _ hr1 (by linear_combination k3)
  · exact hypot_eq_of_sq _ _ _ hr2 (by linear_combination k4)

/-- C10, witness at the circles centered `(0,0)` and `(6,0)` with radii
`5` and `5`. -/
theorem circle_intersection_on_circles_witness :
    ((0 : ℝ) ≤ 5 ∧ |(5 : ℝ) - 5| ≤ hypot (6 - 0) (0 - 0) ∧
      hypot (6 - 0 : ℝ) (0 - 0 : ℝ) ≤ 5 + 5 ∧
      (0 : ℝ) < hypot (6 - 0) (0 - 0)) ∧
    ∃ p q, circle_intersection 0 0 5 6 0 5 = Except.ok (p, q) ∧
      hypot (p.1 - 0) (p.2 - 0) = 5 ∧ hypot (p.1 - 6) (p.2 - 0) = 5 ∧
      hypot (q.1 - 0) (q.2 - 0) = 5 ∧ hypot (q.1 - 6) (q.2 - 0) = 5 :=
  ⟨⟨by norm_num, by rw [hypot_six_zero]; norm_num,
      by rw [hypot_six_zero]; norm_num, by rw [hypot_six_zero]; norm_num⟩,
    circle_intersection_on_circles 0 0 5 6 0 5 (by norm_num) (by norm_num)
      (by rw [hypot_six_zero]; norm_num) (by rw [hypot_six_zero]; norm_num)
      (by rw [hypot_six_zero]; norm_num)⟩

/-- C8: swapping the two circle arguments swaps the two returned points
(and preserves the failure behaviour), so the solution set is unchanged:
circle-circle intersection is symmetric in the input pair. -/
theorem circle_intersection_symm (x1 y1 r1 x2 y2 r2 : ℝ) :
    circle_intersection x2 y2 r2 x1 y1 r1 =
      Except.map (fun pq => (pq.2, pq.1))
        (circle_intersection x1 y1 r1 x2 y2 r2) := by
  have hds : hypot (x1 - x2) (y1 - y2) = hypot (x2 - x1) (y2 - y1) := by
    rw [hypot, hypot]
    congr 1
    ring
  simp only [circle_intersection, hds]
  by_cases hg : hypot (x2 - x1) (y2 - y1) > r1 + r2 ∨
      hypot (x2 - x1) (y2 - y1) < |r1 - r2|
  · rw [if_pos (by rw [add_comm r2 r1, abs_sub_comm r2 r1]; exact hg),
      if_pos hg]
    rfl
  · rw [if_neg (by rw [add_comm r2 r1, abs_sub_comm r2 r1]; exact hg),
      if_neg hg]
    simp only [Except.map, Except.ok.injEq, Prod.mk.injEq]
    by_cases hd0 : hypot (x2 - x1) (y2 - y1) = 0
    · have hsum : (x2 - x1) ^ 2 + (y2 - y1) ^ 2 = 0 := by
        have hs := sq_hypot (x2 - x1) (y2 - y1)
        rw [hd0] at hs
        linarith
      have hx : x2 - x1 = 0 := by
        have hx2 : (x2 - x1) ^ 2 = 0 :=
          le_antisymm (by nlinarith [sq_nonneg (y2 - y1)]) (sq_nonneg _)
        exact pow_eq_zero_iff two_ne_zero |>.mp hx2
      have hy : y2 - y1 = 0 := by
        have hy2 : (y2 - y1) ^ 2 = 0 :=
          le_antisymm (by nlinarith [sq_nonneg (x2 - x1)]) (sq_nonneg _)
        exact pow_eq_zero_iff two_ne_zero |>.mp hy2
      have hx' : x2 = x1 := by linarith
      have hy' : y2 = y1 := by linarith
      subst hx' hy'
      simp
    · have key : r2 ^ 2 - ((r2 ^ 2 - r1 ^ 2 + hypot (x2 - x1) (y2 - y1) ^ 2) /
          (2 * hypot (x2 - x1) (y2 - y1))) ^ 2
          = r1 ^ 2 - ((r1 ^ 2 - r2 ^ 2 + hypot (x2 - x1) (y2 - y1) ^ 2) /
          (2 * hypot (x2 - x1) (y2 - y1))) ^ 2 := by
        field_simp
        ring
      rw [key]
      refine ⟨⟨?_, ?_⟩, ?_, ?_⟩ <;> field_simp <;> ring

end CalcLatLon
